import Mathlib

/-
Verification of the libhdfspp client RPC engine
(hadoop-hdfs-project/hadoop-hdfs-native-client/src/main/native/libhdfspp/lib/rpc/rpc_engine.h).

The header declares three components: Request (per-call bookkeeping),
RpcConnection (send queue, in-flight map, framing) and RpcEngine
(call-id allocation, retry orchestration).  The only function bodies
present in the header are

  int IncrementRetryCount() -- returns retry_count_++
  int NextCallId()          -- returns ++call_id_

which are embedded directly below.  The bodies of the connection-side
operations (FlushPendingRequests, HandleRpcResponse, HandleRpcTimeout,
CommsError, RemoveFromRunningQueue, PreEnqueueRequests) live in .cc
files that are not part of the repository snapshot, so the connection
is modelled from the specification as an explicit state machine over
the fields the header declares: connected_, request_over_the_wire_,
pending_requests_, requests_on_fly_, plus ghost histories recording
submissions, wire sends, requests handed to the engine and handler
invocations.
-/

/-- Two's-complement wraparound of a mathematical integer to the range
of a 32-bit int.  C++ int and std::atomic_int are 32 bits wide on
every platform libhdfspp supports, and atomic increment is defined to
wrap around. -/
def wrap32 (n : Int) : Int :=
  (n + 2147483648) % 4294967296 - 2147483648

/-- Request bookkeeping, from class Request in rpc_engine.h.  The
engine pointer, asio timer and the stored handler closure are not
representable as data and are not needed by the claims about this
class; the remaining fields are kept with their source names. -/
structure Request where
  method_name_ : String
  call_id_ : Int
  payload_ : String
  retry_count_ : Int
deriving DecidableEq

/-- Embeds Request::call_id, source line 78: returns call_id_. -/
def Request.call_id (r : Request) : Int := r.call_id_

/-- Embeds Request::IncrementRetryCount, source line 80:
return retry_count_++; -- the previous count is returned and the
stored counter becomes the 32-bit successor. -/
def Request.IncrementRetryCount (r : Request) : Int × Request :=
  (r.retry_count_, { r with retry_count_ := wrap32 (r.retry_count_ + 1) })

/-- Reserved call id, source line 224: kCallIdAuthorizationFailed = -1. -/
def kCallIdAuthorizationFailed : Int := -1

/-- Reserved call id, source line 225: kCallIdInvalid = -2. -/
def kCallIdInvalid : Int := -2

/-- Reserved call id, source line 226: kCallIdConnectionContext = -3. -/
def kCallIdConnectionContext : Int := -3

/-- Reserved call id, source line 227: kCallIdPing = -4. -/
def kCallIdPing : Int := -4

/-- The engine state the call-id claims depend on: the atomic counter
std::atomic_int call_id_, source line 282. -/
structure RpcEngineState where
  call_id_ : Int
deriving DecidableEq

/-- Embeds RpcEngine::NextCallId, source line 261:
return ++call_id_; -- pre-increment of a std::atomic_int, whose
increment wraps around at the 32-bit boundary; the incremented value
is both stored and returned. -/
def NextCallId (s : RpcEngineState) : Int × RpcEngineState :=
  (wrap32 (s.call_id_ + 1), ⟨wrap32 (s.call_id_ + 1)⟩)

/-- Modelled from the spec: the RpcEngine constructor lives in
rpc_engine.cc, which is not part of the snapshot, so the initial value
of call_id_ is taken from the spec convention that ordinary call ids
are positive and the reserved markers negative: the counter starts at
0 and the first allocated id is 1. -/
def initEngine : RpcEngineState := ⟨0⟩

/-- Engine state after k calls to NextCallId, starting from a freshly
constructed engine. -/
def engineAfter : Nat → RpcEngineState
  | 0 => initEngine
  | k + 1 => (NextCallId (engineAfter k)).2

/-- The call id returned by the (k+1)-st call to NextCallId on a
freshly constructed engine. -/
def callIdAt (k : Nat) : Int := (NextCallId (engineAfter k)).1

/-- Modelled from the spec: one handler invocation, as performed by
Request::OnResponseArrived (declared at source lines 82-83, body in
rpc_engine.cc, not in the snapshot).  rid is the call id of the
Request whose handler ran; on success the payload of the matched
response frame is recorded and ok is true; on failure (timeout or
comms error) there is no payload and ok is false. -/
structure Delivery where
  rid : Nat
  payload : Option Nat
  ok : Bool
deriving DecidableEq

/-- Modelled from the spec: the mutable state of one RpcConnection
(header lines 175-188) together with ghost histories.  connected,
otw, pending and onFly model connected_, request_over_the_wire_,
pending_requests_ and requests_on_fly_; requests are identified by
their call ids (Nat tokens allocated by the nextId counter, mirroring
engine-side NextCallId allocation).  onFly keeps the map as a list of
keys in insertion order; a response payload is routed to the request
whose id equals the frame's call id.  The ghost fields record, in
order: ids sent over the wire, ids submitted by consumers, ids handed
to the engine's retry-or-fail decision, and handler invocations. -/
structure Conn where
  connected : Bool
  otw : Option Nat
  pending : List Nat
  onFly : List Nat
  nextId : Nat
  sent : List Nat
  submitted : List Nat
  handed : List Nat
  delivered : List Delivery
deriving DecidableEq

/-- Modelled from the spec: a fresh connection with nothing queued,
nothing in flight and nothing written. -/
def initConn : Conn :=
  { connected := false, otw := none, pending := [], onFly := [], nextId := 0,
    sent := [], submitted := [], handed := [], delivered := [] }

/-- Modelled from the spec, section 4.2 write path, and the header
comment on request_over_the_wire_ (lines 180-181): when connected and
no request is currently being written, the head of the pending queue
starts its write; as the comment states the request being sent over
the wire will also be in requests_on_fly_, so it is inserted into the
in-flight map at the start of its write. -/
def tryFlush (s : Conn) : Conn :=
  match s.connected, s.otw, s.pending with
  | true, none, r :: rest =>
      { s with otw := some r, pending := rest,
               onFly := s.onFly ++ [r], sent := s.sent ++ [r] }
  | _, _, _ => s

/-- Modelled from the spec: the events that drive one connection.
submit is an engine AsyncRpc/AsyncRawRpc (or a pre-enqueued request
flushed later); connect is the completion of Connect/ConnectAndFlush;
sendComplete is OnSendCompleted for the request over the wire; recv is
HandleRpcResponse for a fully framed response bearing a call id and a
payload; timeout is HandleRpcTimeout for a deadline timer; commsError
is CommsError followed by the engine's RpcCommsError decision, with
retry telling whether the retry policy allows another attempt. -/
inductive Ev where
  | submit
  | connect
  | sendComplete
  | recv (cid : Nat) (payload : Nat)
  | timeout (cid : Nat)
  | commsError (retry : Bool)
deriving DecidableEq

/-- Modelled from the spec: the terminal-failure handler invocations
produced when the retry policy gives up on a batch of requests. -/
def failList (l : List Nat) : List Delivery :=
  l.map (fun id => { rid := id, payload := none, ok := false })

/-- Modelled from the spec: one step of the connection state machine.
submit allocates a fresh id, appends it to the pending queue and
flushes if idle; connect marks the transport up and flushes the
pre-enqueued queue in FIFO order; sendComplete clears the
over-the-wire slot and flushes the next request; recv looks the
frame's call id up in the in-flight map, removes the entry and
invokes its handler with the frame's payload, and is a no-op when the
id is unmatched; timeout removes the single timed-out request from
the in-flight map and reports its failure; commsError drains the
pending queue and the in-flight map into one list handed to the
engine, which either re-enqueues all of them in their original
relative order (retry) or fails each one (give up). -/
def stepConn (s : Conn) : Ev → Conn
  | .submit =>
      tryFlush { s with pending := s.pending ++ [s.nextId],
                        submitted := s.submitted ++ [s.nextId],
                        nextId := s.nextId + 1 }
  | .connect => tryFlush { s with connected := true }
  | .sendComplete => tryFlush { s with otw := none }
  | .recv cid p =>
      if cid ∈ s.onFly then
        { s with onFly := s.onFly.erase cid,
                 delivered := s.delivered ++ [{ rid := cid, payload := some p, ok := true }] }
      else s
  | .timeout cid =>
      if cid ∈ s.onFly then
        { s with onFly := s.onFly.erase cid,
                 delivered := s.delivered ++ [{ rid := cid, payload := none, ok := false }] }
      else s
  | .commsError retry =>
      if retry then
        { s with connected := false, otw := none, onFly := [],
                 pending := s.onFly ++ s.pending,
                 handed := s.handed ++ (s.onFly ++ s.pending) }
      else
        { s with connected := false, otw := none, onFly := [], pending := [],
                 handed := s.handed ++ (s.onFly ++ s.pending),
                 delivered := s.delivered ++ failList (s.onFly ++ s.pending) }

/-- Modelled from the spec: the connection state after a sequence of
events, starting from a fresh connection. -/
def runConn (evs : List Ev) : Conn := evs.foldl stepConn initConn

/-- Number of handler invocations a given call id has received. -/
def dCount (s : Conn) (id : Nat) : Nat := (s.delivered.map Delivery.rid).count id

/-- Number of live occurrences of a call id: in the pending queue or
in the in-flight map. -/
def liveCount (s : Conn) (id : Nat) : Nat := s.pending.count id + s.onFly.count id

/-- Recognizer for comms-error events. -/
def isCommsError : Ev → Bool
  | .commsError _ => true
  | _ => false

/-- The inductive invariant of the connection state machine: every
submitted id is accounted for exactly once, either live (pending or
in flight) or by exactly one handler invocation; ids never submitted
have no live occurrence and no invocation; submitted ids are unique
and below the allocation counter. -/
def ConnInv (s : Conn) : Prop :=
  (∀ id : Nat, liveCount s id + dCount s id = s.submitted.count id) ∧
  (∀ id : Nat, s.submitted.count id ≤ 1) ∧
  (∀ id : Nat, id ∈ s.submitted → id < s.nextId)

/-- A value already in the 32-bit range is unchanged by wraparound. -/
theorem wrap32_eq_self (n : Int) (h1 : -2147483648 ≤ n) (h2 : n < 2147483648) :
    wrap32 n = n := by
  unfold wrap32
  omega

/-- Wraparound absorbs an inner wraparound of the left summand. -/
theorem wrap32_wrap32_add (a b : Int) : wrap32 (wrap32 a + b) = wrap32 (a + b) := by
  unfold wrap32
  omega

/-- The stored counter after k allocations is k reduced to 32 bits. -/
theorem engineAfter_call_id (k : Nat) : (engineAfter k).call_id_ = wrap32 (k : Int) := by
  induction k with
  | zero =>
      show (0 : Int) = wrap32 0
      unfold wrap32
      decide
  | succ k ih =>
      show wrap32 ((engineAfter k).call_id_ + 1) = wrap32 ((k : Int) + 1)
      rw [ih, wrap32_wrap32_add]

/-- Closed form for the id returned by the (k+1)-st allocation. -/
theorem callIdAt_eq (k : Nat) : callIdAt k = wrap32 ((k : Int) + 1) := by
  show wrap32 ((engineAfter k).call_id_ + 1) = wrap32 ((k : Int) + 1)
  rw [engineAfter_call_id, wrap32_wrap32_add]

/-- C3 (amended): on a single RpcEngine instance the call ids returned
by successive NextCallId calls are strictly increasing, and hence
never repeated, as long as the 32-bit counter has not overflowed,
i.e. among the first 2^31 - 1 allocations. -/
theorem nextCallId_strictly_increasing_before_wrap (j k : Nat)
    (hjk : j < k) (hk : k < 2147483647) : callIdAt j < callIdAt k := by
  rw [callIdAt_eq, callIdAt_eq]
  rw [wrap32_eq_self ((j : Int) + 1) (by omega) (by omega),
      wrap32_eq_self ((k : Int) + 1) (by omega) (by omega)]
  omega

/-- C3 witness: the first allocation returns a smaller id than the
second. -/
theorem nextCallId_strictly_increasing_before_wrap_witness :
    (0 : Nat) < 1 ∧ (1 : Nat) < 2147483647 ∧ callIdAt 0 < callIdAt 1 :=
  ⟨by norm_num, by norm_num,
    nextCallId_strictly_increasing_before_wrap 0 1 (by norm_num) (by norm_num)⟩

/-- C3 counterexample: the claim as stated fails at the 32-bit
wraparound: NextCallId call number 2147483647 (0-indexed 2147483646)
returns 2147483647, and the very next call returns -2147483648, a
strictly smaller id, because ++ on a std::atomic_int wraps. -/
theorem nextCallId_not_strictly_increasing_at_wrap :
    (2147483646 : Nat) < 2147483647 ∧ callIdAt 2147483647 < callIdAt 2147483646 := by
  constructor
  · norm_num
  · rw [callIdAt_eq, callIdAt_eq]
    unfold wrap32
    norm_num

/-- C8 (amended): NextCallId never returns one of the four reserved
call ids during the first 2^32 - 5 allocations; a reserved value can
only be produced after the 32-bit counter wraps all the way into the
reserved band. -/
theorem nextCallId_avoids_reserved_before_wrap (k : Nat) (hk : (k : Int) < 4294967291) :
    callIdAt k ≠ kCallIdAuthorizationFailed ∧ callIdAt k ≠ kCallIdInvalid ∧
    callIdAt k ≠ kCallIdConnectionContext ∧ callIdAt k ≠ kCallIdPing := by
  rw [callIdAt_eq]
  unfold wrap32 kCallIdAuthorizationFailed kCallIdInvalid kCallIdConnectionContext kCallIdPing
  have hk0 : (0 : Int) ≤ (k : Int) := Int.natCast_nonneg k
  omega

/-- C8 witness: the first allocated id, 1, is none of the reserved
markers. -/
theorem nextCallId_avoids_reserved_before_wrap_witness :
    ((0 : Nat) : Int) < 4294967291 ∧
    (callIdAt 0 ≠ kCallIdAuthorizationFailed ∧ callIdAt 0 ≠ kCallIdInvalid ∧
      callIdAt 0 ≠ kCallIdConnectionContext ∧ callIdAt 0 ≠ kCallIdPing) :=
  ⟨by norm_num, nextCallId_avoids_reserved_before_wrap 0 (by norm_num)⟩

/-- C8 counterexample: the claim as stated fails once the 32-bit
counter wraps: allocation number 4294967292 (0-indexed 4294967291)
returns -4, which is the reserved keep-alive ping marker kCallIdPing. -/
theorem nextCallId_returns_reserved_at_wrap : callIdAt 4294967291 = kCallIdPing := by
  rw [callIdAt_eq]
  unfold wrap32 kCallIdPing
  norm_num

/-- C9 (amended): IncrementRetryCount returns the previous retry count
n and leaves the stored counter at n + 1, provided the 32-bit counter
does not overflow, i.e. n < 2^31 - 1. -/
theorem incrementRetryCount_returns_previous_and_stores_succ (r : Request)
    (h1 : -2147483648 ≤ r.retry_count_) (h2 : r.retry_count_ < 2147483647) :
    r.IncrementRetryCount.1 = r.retry_count_ ∧
    r.IncrementRetryCount.2.retry_count_ = r.retry_count_ + 1 := by
  refine ⟨rfl, ?_⟩
  show wrap32 (r.retry_count_ + 1) = r.retry_count_ + 1
  exact wrap32_eq_self _ (by omega) (by omega)

/-- C9 witness: at retry count 3 the call returns 3 and stores 4. -/
theorem incrementRetryCount_returns_previous_and_stores_succ_witness :
    (-2147483648 ≤ (3 : Int) ∧ (3 : Int) < 2147483647) ∧
    (Request.mk ("getFileInfo") 1 ("") 3).IncrementRetryCount.1 = 3 ∧
    (Request.mk ("getFileInfo") 1 ("") 3).IncrementRetryCount.2.retry_count_ = 3 + 1 :=
  ⟨⟨by norm_num, by norm_num⟩,
    incrementRetryCount_returns_previous_and_stores_succ
      (Request.mk ("getFileInfo") 1 ("") 3) (by norm_num) (by norm_num)⟩

/-- C9 counterexample: the claim as stated fails at retry count
2^31 - 1: the previous count is returned, but the stored counter wraps
to -2147483648 instead of n + 1, since retry_count_ is a 32-bit int. -/
theorem incrementRetryCount_overflows_at_int_max :
    (Request.mk ("getFileInfo") 1 ("") 2147483647).IncrementRetryCount.1 = 2147483647 ∧
    (Request.mk ("getFileInfo") 1 ("") 2147483647).IncrementRetryCount.2.retry_count_ ≠
      2147483647 + 1 := by
  refine ⟨rfl, ?_⟩
  show wrap32 (2147483647 + 1) ≠ 2147483647 + 1
  unfold wrap32
  norm_num

/-- Flushing does not change the submission history. -/
theorem tryFlush_submitted (s : Conn) : (tryFlush s).submitted = s.submitted := by
  unfold tryFlush
  split <;> rfl

/-- Flushing does not change the allocation counter. -/
theorem tryFlush_nextId (s : Conn) : (tryFlush s).nextId = s.nextId := by
  unfold tryFlush
  split <;> rfl

/-- Flushing does not invoke any handler. -/
theorem tryFlush_delivered (s : Conn) : (tryFlush s).delivered = s.delivered := by
  unfold tryFlush
  split <;> rfl

/-- Flushing hands nothing to the engine. -/
theorem tryFlush_handed (s : Conn) : (tryFlush s).handed = s.handed := by
  unfold tryFlush
  split <;> rfl

/-- Flushing does not change the connected flag. -/
theorem tryFlush_connected (s : Conn) : (tryFlush s).connected = s.connected := by
  unfold tryFlush
  split <;> rfl

/-- Flushing only moves a request from the pending queue to the
in-flight map, so the number of live occurrences of any id is
unchanged. -/
theorem tryFlush_liveCount (s : Conn) (id : Nat) :
    liveCount (tryFlush s) id = liveCount s id := by
  unfold tryFlush
  split
  · next r rest heq1 heq2 heq3 =>
      simp only [liveCount, heq3, List.count_append, List.count_cons, List.count_nil]
      by_cases h : id = r <;> simp [h] <;> omega
  · rfl

/-- Flushing invokes no handler, so invocation counts are unchanged. -/
theorem tryFlush_dCount (s : Conn) (id : Nat) : dCount (tryFlush s) id = dCount s id := by
  simp [dCount, tryFlush_delivered]

/-- Flushing moves the head of the pending queue to the end of the
sent history: the concatenation of the two is unchanged. -/
theorem tryFlush_sent_append_pending (s : Conn) :
    (tryFlush s).sent ++ (tryFlush s).pending = s.sent ++ s.pending := by
  unfold tryFlush
  split
  · next r rest heq1 heq2 heq3 => simp [heq3]
  · rfl

/-- If a request is over the wire after a flush, either it already was
before, or it is in the in-flight map of the flushed state. -/
theorem tryFlush_otw_cases (s : Conn) (id : Nat) (h : (tryFlush s).otw = some id) :
    s.otw = some id ∨ id ∈ (tryFlush s).onFly := by
  unfold tryFlush at h ⊢
  split at h
  · next r rest heq1 heq2 heq3 =>
      simp only [Option.some.injEq] at h
      subst h
      right
      simp [heq1, heq2, heq3]
  · left; exact h

/-- Counting in a list extended by one element. -/
theorem count_append_singleton (l : List Nat) (a b : Nat) :
    (l ++ [b]).count a = l.count a + if a = b then 1 else 0 := by
  by_cases h : a = b <;> simp [List.count_append, List.count_singleton, h, eq_comm]

/-- The failure deliveries for a batch invoke exactly the handlers of
the batch, in order. -/
theorem failList_map_rid (l : List Nat) : (failList l).map Delivery.rid = l := by
  induction l with
  | nil => rfl
  | cons a l ih =>
      simp only [failList, List.map_cons] at ih ⊢
      rw [ih]

/-- The fresh connection satisfies the invariant. -/
theorem connInv_init : ConnInv initConn := by
  refine ⟨?_, ?_, ?_⟩
  · intro id; simp [liveCount, dCount, initConn]
  · intro id; simp [initConn]
  · intro id h; simp [initConn] at h

/-- Flushing preserves the invariant. -/
theorem connInv_tryFlush (s : Conn) (h : ConnInv s) : ConnInv (tryFlush s) := by
  obtain ⟨h1, h2, h3⟩ := h
  refine ⟨?_, ?_, ?_⟩
  · intro id
    rw [tryFlush_liveCount, tryFlush_dCount, tryFlush_submitted]
    exact h1 id
  · intro id
    rw [tryFlush_submitted]
    exact h2 id
  · intro id
    rw [tryFlush_submitted, tryFlush_nextId]
    exact h3 id

/-- Submitting a fresh request preserves the invariant: the allocated
id was never seen before, enters the pending queue with one live
occurrence, and the counter moves past it. -/
theorem connInv_submit_base (s : Conn) (h : ConnInv s) :
    ConnInv { s with pending := s.pending ++ [s.nextId],
                     submitted := s.submitted ++ [s.nextId],
                     nextId := s.nextId + 1 } := by
  obtain ⟨h1, h2, h3⟩ := h
  have hfresh : s.nextId ∉ s.submitted := fun hm => lt_irrefl _ (h3 _ hm)
  have hzero : s.submitted.count s.nextId = 0 := List.count_eq_zero_of_not_mem hfresh
  refine ⟨?_, ?_, ?_⟩
  · intro id
    have hc := h1 id
    simp only [liveCount, dCount] at hc ⊢
    rw [count_append_singleton, count_append_singleton]
    by_cases hid : id = s.nextId
    · subst hid
      simp only [eq_self_iff_true, if_true]
      omega
    · simp only [hid, if_false]
      omega
  · intro id
    have hb := h2 id
    show (s.submitted ++ [s.nextId]).count id ≤ 1
    rw [count_append_singleton]
    by_cases hid : id = s.nextId
    · subst hid
      simp only [eq_self_iff_true, if_true]
      omega
    · simp only [hid, if_false]
      omega
  · intro id hm
    show id < s.nextId + 1
    rcases List.mem_append.1 hm with hm | hm
    · exact Nat.lt_succ_of_lt (h3 _ hm)
    · simp only [List.mem_singleton] at hm
      omega

/-- Removing one in-flight request and invoking its handler once
preserves the invariant; used for both response arrival and timeout. -/
theorem connInv_remove_deliver (s : Conn) (cid : Nat) (d : Delivery)
    (hd : d.rid = cid) (hmem : cid ∈ s.onFly) (h : ConnInv s) :
    ConnInv { s with onFly := s.onFly.erase cid, delivered := s.delivered ++ [d] } := by
  obtain ⟨h1, h2, h3⟩ := h
  refine ⟨?_, h2, h3⟩
  intro id
  have hc := h1 id
  have hpos : 0 < s.onFly.count cid := List.count_pos_iff.2 hmem
  simp only [liveCount, dCount, List.map_append, List.count_append] at hc ⊢
  by_cases hid : id = cid
  · subst hid
    rw [List.count_erase_self]
    have hone : (List.map Delivery.rid [d]).count id = 1 := by simp [hd]
    omega
  · rw [List.count_erase_of_ne hid]
    have hnone : (List.map Delivery.rid [d]).count id = 0 := by simp [hd, hid]
    omega

/-- A comms error with a permitted retry preserves the invariant: the
drained requests all return to the pending queue. -/
theorem connInv_commsError_retry (s : Conn) (h : ConnInv s) :
    ConnInv { s with connected := false, otw := none, onFly := ([] : List Nat),
                     pending := s.onFly ++ s.pending,
                     handed := s.handed ++ (s.onFly ++ s.pending) } := by
  obtain ⟨h1, h2, h3⟩ := h
  refine ⟨?_, h2, h3⟩
  intro id
  have hc := h1 id
  simp only [liveCount, dCount, List.count_append, List.count_nil] at hc ⊢
  omega

/-- A comms error whose retry is refused preserves the invariant: each
drained request trades its single live occurrence for a single
failure invocation. -/
theorem connInv_commsError_fail (s : Conn) (h : ConnInv s) :
    ConnInv { s with connected := false, otw := none, onFly := ([] : List Nat),
                     pending := ([] : List Nat),
                     handed := s.handed ++ (s.onFly ++ s.pending),
                     delivered := s.delivered ++ failList (s.onFly ++ s.pending) } := by
  obtain ⟨h1, h2, h3⟩ := h
  refine ⟨?_, h2, h3⟩
  intro id
  have hc := h1 id
  simp only [liveCount, dCount, List.map_append, failList_map_rid, List.count_append,
    List.count_nil] at hc ⊢
  omega

/-- Every step of the connection state machine preserves the
invariant. -/
theorem connInv_step (s : Conn) (e : Ev) (h : ConnInv s) : ConnInv (stepConn s e) := by
  cases e with
  | submit => exact connInv_tryFlush _ (connInv_submit_base s h)
  | connect => exact connInv_tryFlush _ h
  | sendComplete => exact connInv_tryFlush _ h
  | recv cid p =>
      simp only [stepConn]
      split
      · next hmem => exact connInv_remove_deliver s cid _ rfl hmem h
      · exact h
  | timeout cid =>
      simp only [stepConn]
      split
      · next hmem => exact connInv_remove_deliver s cid _ rfl hmem h
      · exact h
  | commsError retry =>
      cases retry
      · simpa only [stepConn, Bool.false_eq_true, if_false] using connInv_commsError_fail s h
      · simpa only [stepConn, if_true] using connInv_commsError_retry s h

/-- The invariant holds along any event sequence from any invariant
state. -/
theorem connInv_foldl (evs : List Ev) :
    ∀ s : Conn, ConnInv s → ConnInv (evs.foldl stepConn s) := by
  induction evs with
  | nil => intro s h; exact h
  | cons e evs ih => intro s h; exact ih _ (connInv_step s e h)

/-- Every reachable connection state satisfies the invariant. -/
theorem connInv_run (evs : List Ev) : ConnInv (runConn evs) :=
  connInv_foldl evs initConn connInv_init

/-- A successful delivery is never produced by the give-up failure
path. -/
theorem ok_not_mem_failList (l : List Nat) (rid p : Nat) :
    ({ rid := rid, payload := some p, ok := true } : Delivery) ∉ failList l := by
  simp [failList, List.mem_map, Delivery.mk.injEq]

/-- A response whose call id is not in the in-flight map leaves the
state completely unchanged. -/
theorem stepConn_recv_not_mem (s : Conn) (cid p : Nat) (h : cid ∉ s.onFly) :
    stepConn s (Ev.recv cid p) = s := by
  simp only [stepConn, if_neg h]

/-- Any step other than a comms error keeps the submission history
equal to the sent history followed by the pending queue. -/
theorem fifo_step (s : Conn) (e : Ev) (he : isCommsError e = false)
    (h : s.submitted = s.sent ++ s.pending) :
    (stepConn s e).submitted = (stepConn s e).sent ++ (stepConn s e).pending := by
  cases e with
  | submit =>
      simp only [stepConn]
      rw [tryFlush_submitted, tryFlush_sent_append_pending]
      show s.submitted ++ [s.nextId] = s.sent ++ (s.pending ++ [s.nextId])
      rw [h, List.append_assoc]
  | connect =>
      simp only [stepConn]
      rw [tryFlush_submitted, tryFlush_sent_append_pending]
      exact h
  | sendComplete =>
      simp only [stepConn]
      rw [tryFlush_submitted, tryFlush_sent_append_pending]
      exact h
  | recv cid p =>
      simp only [stepConn]
      split
      · exact h
      · exact h
  | timeout cid =>
      simp only [stepConn]
      split
      · exact h
      · exact h
  | commsError retry => simp [isCommsError] at he

/-- The FIFO relation holds along any comms-error-free event
sequence. -/
theorem fifo_foldl (evs : List Ev) :
    ∀ s : Conn, (∀ e ∈ evs, isCommsError e = false) →
      s.submitted = s.sent ++ s.pending →
      (evs.foldl stepConn s).submitted
        = (evs.foldl stepConn s).sent ++ (evs.foldl stepConn s).pending := by
  induction evs with
  | nil => intro s _ h; exact h
  | cons e evs ih =>
      intro s he h
      exact ih _ (fun x hx => he x (List.mem_cons_of_mem _ hx))
        (fifo_step s e (he e (List.mem_cons_self _ _)) h)

/-- A successful delivery recorded along a run always stems from a
received response event carrying exactly that call id and payload. -/
theorem delivered_ok_mem_foldl (evs : List Ev) :
    ∀ (s : Conn) (rid p : Nat),
      ({ rid := rid, payload := some p, ok := true } : Delivery)
          ∈ (evs.foldl stepConn s).delivered →
      ({ rid := rid, payload := some p, ok := true } : Delivery) ∈ s.delivered ∨
        Ev.recv rid p ∈ evs := by
  induction evs with
  | nil => intro s rid p h; exact Or.inl h
  | cons e evs ih =>
      intro s rid p h
      rcases ih (stepConn s e) rid p h with h1 | h1
      · cases e with
        | submit =>
            left
            simp only [stepConn] at h1
            rw [tryFlush_delivered] at h1
            exact h1
        | connect =>
            left
            simp only [stepConn] at h1
            rw [tryFlush_delivered] at h1
            exact h1
        | sendComplete =>
            left
            simp only [stepConn] at h1
            rw [tryFlush_delivered] at h1
            exact h1
        | recv cid q =>
            simp only [stepConn] at h1
            by_cases hm : cid ∈ s.onFly
            · rw [if_pos hm] at h1
              rcases List.mem_append.1 h1 with h2 | h2
              · exact Or.inl h2
              · simp only [List.mem_singleton, Delivery.mk.injEq, Option.some.injEq] at h2
                right
                obtain ⟨hr, hp, -⟩ := h2
                subst hr
                subst hp
                exact List.mem_cons_self _ _
            · rw [if_neg hm] at h1
              exact Or.inl h1
        | timeout cid =>
            simp only [stepConn] at h1
            by_cases hm : cid ∈ s.onFly
            · rw [if_pos hm] at h1
              rcases List.mem_append.1 h1 with h2 | h2
              · exact Or.inl h2
              · simp [Delivery.mk.injEq] at h2
            · rw [if_neg hm] at h1
              exact Or.inl h1
        | commsError retry =>
            simp only [stepConn] at h1
            cases retry
            · simp only [Bool.false_eq_true, if_false] at h1
              rcases List.mem_append.1 h1 with h2 | h2
              · exact Or.inl h2
              · exact absurd h2 (ok_not_mem_failList _ rid p)
            · simp only [if_true] at h1
              exact Or.inl h1
      · exact Or.inr (List.mem_cons_of_mem _ h1)

/-- C1: every submitted Request resolves exactly once: the number of
handler invocations it has received plus the number of live
occurrences it still has (pending or in flight) is exactly one, in
every reachable state.  In particular a handler never runs twice, and
once a request is no longer tracked its handler has run exactly once,
with either a successful response or a failure status. -/
theorem request_resolves_exactly_once (evs : List Ev) (id : Nat)
    (h : id ∈ (runConn evs).submitted) :
    dCount (runConn evs) id + liveCount (runConn evs) id = 1 := by
  obtain ⟨h1, h2, h3⟩ := connInv_run evs
  have hc := h1 id
  have hmem : 0 < (runConn evs).submitted.count id := List.count_pos_iff.2 h
  have hle := h2 id
  omega

/-- C1 witness: after submitting one call, connecting, and receiving
its response, the request has been resolved exactly once. -/
theorem request_resolves_exactly_once_witness :
    0 ∈ (runConn [Ev.submit, Ev.connect, Ev.recv 0 5]).submitted ∧
    dCount (runConn [Ev.submit, Ev.connect, Ev.recv 0 5]) 0 +
      liveCount (runConn [Ev.submit, Ev.connect, Ev.recv 0 5]) 0 = 1 :=
  ⟨by decide, request_resolves_exactly_once [Ev.submit, Ev.connect, Ev.recv 0 5] 0 (by decide)⟩

/-- C2: strict FIFO send order.  Along any run without comms errors,
the submission history is exactly the wire-send history followed by
the still-pending queue: requests, including those pre-enqueued before
the connection completed, go over the wire in exactly their submission
order (the model keeps at most one request over the wire and flushes
the next queued request when a write completes). -/
theorem fifo_send_order (evs : List Ev) (he : ∀ e ∈ evs, isCommsError e = false) :
    (runConn evs).submitted = (runConn evs).sent ++ (runConn evs).pending :=
  fifo_foldl evs initConn he rfl

/-- C2 witness: two calls submitted before the connection completes
are sent in submission order once connected. -/
theorem fifo_send_order_witness :
    (∀ e ∈ [Ev.submit, Ev.submit, Ev.connect, Ev.sendComplete], isCommsError e = false) ∧
    (runConn [Ev.submit, Ev.submit, Ev.connect, Ev.sendComplete]).submitted =
      (runConn [Ev.submit, Ev.submit, Ev.connect, Ev.sendComplete]).sent ++
        (runConn [Ev.submit, Ev.submit, Ev.connect, Ev.sendComplete]).pending :=
  ⟨by decide, fifo_send_order [Ev.submit, Ev.submit, Ev.connect, Ev.sendComplete] (by decide)⟩

/-- C4: responses are matched by call id, not by arrival position: if
the handler of the Request with call id rid was ever invoked with a
successful payload p, then some received frame carried exactly call id
rid together with payload p, whatever the delivery order of the other
in-flight calls was. -/
theorem response_matched_by_call_id (evs : List Ev) (rid p : Nat)
    (h : ({ rid := rid, payload := some p, ok := true } : Delivery)
        ∈ (runConn evs).delivered) :
    Ev.recv rid p ∈ evs := by
  rcases delivered_ok_mem_foldl evs initConn rid p h with h1 | h1
  · simp [initConn] at h1
  · exact h1

/-- C4 witness: with calls 0 and 1 in flight, responses delivered out
of submission order still reach their own handlers with their own
payloads. -/
theorem response_matched_by_call_id_witness :
    ({ rid := 0, payload := some 7, ok := true } : Delivery)
        ∈ (runConn [Ev.submit, Ev.submit, Ev.connect, Ev.sendComplete,
            Ev.recv 1 9, Ev.recv 0 7]).delivered ∧
    Ev.recv 0 7 ∈ [Ev.submit, Ev.submit, Ev.connect, Ev.sendComplete,
        Ev.recv 1 9, Ev.recv 0 7] :=
  ⟨by decide, response_matched_by_call_id
    [Ev.submit, Ev.submit, Ev.connect, Ev.sendComplete, Ev.recv 1 9, Ev.recv 0 7]
    0 7 (by decide)⟩

/-- C5: a response frame whose call id has no entry in the in-flight
map is discarded as a complete no-op: the state, including the pending
queue, every in-flight entry and the delivery history, is unchanged,
and no error is raised. -/
theorem unmatched_response_discarded (s : Conn) (cid p : Nat) (h : cid ∉ s.onFly) :
    stepConn s (Ev.recv cid p) = s :=
  stepConn_recv_not_mem s cid p h

/-- C5 witness: with call 0 in flight and call 1 pending, a response
frame bearing the unknown call id 2 changes nothing. -/
theorem unmatched_response_discarded_witness :
    2 ∉ (runConn [Ev.submit, Ev.connect, Ev.submit]).onFly ∧
    stepConn (runConn [Ev.submit, Ev.connect, Ev.submit]) (Ev.recv 2 9)
      = runConn [Ev.submit, Ev.connect, Ev.submit] :=
  ⟨by decide, unmatched_response_discarded (runConn [Ev.submit, Ev.connect, Ev.submit]) 2 9 (by decide)⟩

/-- C6: a comms error on a connection with K pending and M in-flight
requests hands exactly those K + M requests — the union of both
containers — to the engine's retry-or-fail decision, clearing both
containers; when the decision is to fail, each handed request receives
exactly one handler invocation. -/
theorem commsError_hands_all_requests (evs : List Ev) (id : Nat)
    (h : id ∈ (runConn evs).onFly ++ (runConn evs).pending) :
    (stepConn (runConn evs) (Ev.commsError false)).handed
        = (runConn evs).handed ++ ((runConn evs).onFly ++ (runConn evs).pending) ∧
    (stepConn (runConn evs) (Ev.commsError false)).handed.length
        = (runConn evs).handed.length
          + ((runConn evs).onFly.length + (runConn evs).pending.length) ∧
    (stepConn (runConn evs) (Ev.commsError false)).pending = [] ∧
    (stepConn (runConn evs) (Ev.commsError false)).onFly = [] ∧
    dCount (stepConn (runConn evs) (Ev.commsError false)) id = 1 := by
  have hstep : stepConn (runConn evs) (Ev.commsError false) =
      { runConn evs with
          connected := false,
          otw := none,
          onFly := [],
          pending := [],
          handed := (runConn evs).handed ++ ((runConn evs).onFly ++ (runConn evs).pending),
          delivered := (runConn evs).delivered
            ++ failList ((runConn evs).onFly ++ (runConn evs).pending) } := by
    simp [stepConn]
  obtain ⟨h1, h2, h3⟩ := connInv_run evs
  have hc := h1 id
  have hle := h2 id
  have hpos : 0 < ((runConn evs).onFly ++ (runConn evs).pending).count id :=
    List.count_pos_iff.2 h
  rw [List.count_append] at hpos
  simp only [liveCount, dCount] at hc
  refine ⟨by rw [hstep], ?_, by rw [hstep], by rw [hstep], ?_⟩
  · rw [hstep]
    simp [List.length_append]
  · rw [hstep]
    show ((((runConn evs).delivered
        ++ failList ((runConn evs).onFly ++ (runConn evs).pending)).map Delivery.rid).count id) = 1
    rw [List.map_append, failList_map_rid, List.count_append, List.count_append]
    omega

/-- C6 witness: a comms error with one pending and one in-flight
request hands exactly those two requests to the engine and, on
give-up, invokes the in-flight request's handler exactly once. -/
theorem commsError_hands_all_requests_witness :
    0 ∈ (runConn [Ev.submit, Ev.submit, Ev.connect]).onFly
        ++ (runConn [Ev.submit, Ev.submit, Ev.connect]).pending ∧
    ((stepConn (runConn [Ev.submit, Ev.submit, Ev.connect]) (Ev.commsError false)).handed
        = (runConn [Ev.submit, Ev.submit, Ev.connect]).handed
          ++ ((runConn [Ev.submit, Ev.submit, Ev.connect]).onFly
            ++ (runConn [Ev.submit, Ev.submit, Ev.connect]).pending) ∧
      (stepConn (runConn [Ev.submit, Ev.submit, Ev.connect]) (Ev.commsError false)).handed.length
        = (runConn [Ev.submit, Ev.submit, Ev.connect]).handed.length
          + ((runConn [Ev.submit, Ev.submit, Ev.connect]).onFly.length
            + (runConn [Ev.submit, Ev.submit, Ev.connect]).pending.length) ∧
      (stepConn (runConn [Ev.submit, Ev.submit, Ev.connect]) (Ev.commsError false)).pending = [] ∧
      (stepConn (runConn [Ev.submit, Ev.submit, Ev.connect]) (Ev.commsError false)).onFly = [] ∧
      dCount (stepConn (runConn [Ev.submit, Ev.submit, Ev.connect]) (Ev.commsError false)) 0 = 1) :=
  ⟨by decide, commsError_hands_all_requests [Ev.submit, Ev.submit, Ev.connect] 0 (by decide)⟩

/-- C7: a timeout firing for an in-flight request removes exactly that
request from the in-flight map — the pending queue is untouched and
erasing one key leaves every other in-flight entry in place — reports
exactly one failure for it, and a stale response frame for the same
call id arriving afterwards is a complete no-op, so the handler is not
invoked a second time. -/
theorem timeout_removes_single_request (evs : List Ev) (cid p : Nat)
    (h : cid ∈ (runConn evs).onFly) :
    (stepConn (runConn evs) (Ev.timeout cid)).onFly = (runConn evs).onFly.erase cid ∧
    (stepConn (runConn evs) (Ev.timeout cid)).pending = (runConn evs).pending ∧
    (stepConn (runConn evs) (Ev.timeout cid)).delivered
        = (runConn evs).delivered ++ [{ rid := cid, payload := none, ok := false }] ∧
    stepConn (stepConn (runConn evs) (Ev.timeout cid)) (Ev.recv cid p)
        = stepConn (runConn evs) (Ev.timeout cid) := by
  have hstep : stepConn (runConn evs) (Ev.timeout cid) =
      { runConn evs with
          onFly := (runConn evs).onFly.erase cid,
          delivered := (runConn evs).delivered
            ++ [{ rid := cid, payload := none, ok := false }] } := by
    simp [stepConn, h]
  obtain ⟨h1, h2, h3⟩ := connInv_run evs
  have hc := h1 cid
  have hle := h2 cid
  simp only [liveCount, dCount] at hc
  have hpos : 0 < (runConn evs).onFly.count cid := List.count_pos_iff.2 h
  have hz : ((runConn evs).onFly.erase cid).count cid = 0 := by
    rw [List.count_erase_self]
    omega
  have hnm : cid ∉ (runConn evs).onFly.erase cid := List.count_eq_zero.1 hz
  refine ⟨by rw [hstep], by rw [hstep], by rw [hstep], ?_⟩
  rw [hstep]
  exact stepConn_recv_not_mem _ cid p hnm

/-- C7 witness: the sole in-flight request times out, is removed,
receives one failure, and a stale response for it afterwards changes
nothing. -/
theorem timeout_removes_single_request_witness :
    0 ∈ (runConn [Ev.submit, Ev.connect]).onFly ∧
    ((stepConn (runConn [Ev.submit, Ev.connect]) (Ev.timeout 0)).onFly
        = (runConn [Ev.submit, Ev.connect]).onFly.erase 0 ∧
      (stepConn (runConn [Ev.submit, Ev.connect]) (Ev.timeout 0)).pending
        = (runConn [Ev.submit, Ev.connect]).pending ∧
      (stepConn (runConn [Ev.submit, Ev.connect]) (Ev.timeout 0)).delivered
        = (runConn [Ev.submit, Ev.connect]).delivered
          ++ [{ rid := 0, payload := none, ok := false }] ∧
      stepConn (stepConn (runConn [Ev.submit, Ev.connect]) (Ev.timeout 0)) (Ev.recv 0 9)
        = stepConn (runConn [Ev.submit, Ev.connect]) (Ev.timeout 0)) :=
  ⟨by decide, timeout_removes_single_request [Ev.submit, Ev.connect] 0 9 (by decide)⟩

/-- C10 (amended): a request enters the in-flight map no later than
the start of its write: whenever a step makes request_over_the_wire_
point at a request that was not already over the wire, that request is
in requests_on_fly_ of the resulting state.  (Membership is not
maintained for the whole write: a timeout or response for the same
call id can remove the entry while the write is still in progress.) -/
theorem request_on_fly_at_write_start (s : Conn) (e : Ev) (id : Nat)
    (h : (stepConn s e).otw = some id) :
    s.otw = some id ∨ id ∈ (stepConn s e).onFly := by
  cases e with
  | submit =>
      simp only [stepConn] at h ⊢
      rcases tryFlush_otw_cases _ id h with h1 | h1
      · exact Or.inl h1
      · exact Or.inr h1
  | connect =>
      simp only [stepConn] at h ⊢
      rcases tryFlush_otw_cases _ id h with h1 | h1
      · exact Or.inl h1
      · exact Or.inr h1
  | sendComplete =>
      simp only [stepConn] at h ⊢
      rcases tryFlush_otw_cases _ id h with h1 | h1
      · simp at h1
      · exact Or.inr h1
  | recv cid p =>
      simp only [stepConn] at h
      split at h
      · exact Or.inl h
      · exact Or.inl h
  | timeout cid =>
      simp only [stepConn] at h
      split at h
      · exact Or.inl h
      · exact Or.inl h
  | commsError retry =>
      simp only [stepConn] at h
      split at h
      · simp at h
      · simp at h

/-- C10 witness: when the pre-enqueued request 0 starts its write upon
connecting, it is in the in-flight map at that moment. -/
theorem request_on_fly_at_write_start_witness :
    (stepConn (runConn [Ev.submit]) Ev.connect).otw = some 0 ∧
    ((runConn [Ev.submit]).otw = some 0 ∨
      0 ∈ (stepConn (runConn [Ev.submit]) Ev.connect).onFly) :=
  ⟨by decide, request_on_fly_at_write_start (runConn [Ev.submit]) Ev.connect 0 (by decide)⟩

/-- C10 counterexample: the unconditional invariant fails: after the
in-flight request 0 times out while still being written, the state has
request_over_the_wire_ pointing at request 0, yet 0 is no longer in
requests_on_fly_. -/
theorem otw_not_on_fly_after_timeout :
    (runConn [Ev.submit, Ev.connect, Ev.timeout 0]).otw = some 0 ∧
    0 ∉ (runConn [Ev.submit, Ev.connect, Ev.timeout 0]).onFly := by
  decide
